import Mathlib

/-!
Shallow embedding of the JSON parser of the `mson-poc` crate (`src/src/lib.rs`)
and proofs about the claims of its specification.

The embedding follows the Rust source function by function:

* `JSONValue`, `ParseError` and the cursor `JSON { chars, i }` mirror the data
  model of the source.  Objects are represented as association lists whose
  insert operation (`insertKV`) has the observable behaviour of
  `HashMap::insert` (replace the value when the key is present).
* Every `self.chars[idx]` indexing operation of the source is modelled by a
  `List.get?` lookup; an out-of-bounds access produces the outcome `Res.panic`,
  mirroring the Rust runtime panic.
* The `while` loops of the source (`skip_whitespace`, the string/object/array
  scanning loops, and the recursion between `parse_value` and the
  object/array productions) are modelled with an explicit fuel parameter;
  exhausting the fuel produces the outcome `Res.nofuel`.  A run of the Rust
  program that terminates (normally or with a panic) is reproduced by every
  sufficiently large fuel; a nonterminating run is exactly one that yields
  `Res.nofuel` for every fuel.
* The number scanning loops of `parse_number` (`while chars[n].is_ascii_digit()
  && n < max`) always terminate in the source; they are modelled by
  `scanDigits`, whose internal gas `mx + 1` is an upper bound on the number of
  iterations (each iteration increases `n` and requires `n < mx`), so the gas
  never cuts a run short.
-/

namespace MsonPoc

/-- The error taxonomy of the source (`enum ParseError`), each variant carrying
the free-form diagnostic string that the source builds with `format!`. -/
inductive ParseError where
  | UnexpectedEndOfInput : String → ParseError
  | ExpectedEndOfInput : String → ParseError
  | ExpectedObjectKey : String → ParseError
  | ExpectedToken : String → ParseError
  | UnexpectedToken : String → ParseError
  | ExpectedDigit : String → ParseError
  | ExpectedEscapeChar : String → ParseError
  | ExpectedUnicodeEscape : String → ParseError

/-- The value model of the source (`enum JSONValue`).  `Object` carries an
association list standing in for `HashMap<String, JSONValue>` (see `insertKV`).
`Number` carries the result of the text-to-number conversion, modelled as an
exact fraction `(numerator, denominator)` (see `strToNumber`): the source
stores an `f64`, and on every numeral evaluated in the theorems below the
`f64` value is exact, so the fraction model introduces no deviation. -/
inductive JSONValue where
  | Object : List (String × JSONValue) → JSONValue
  | Array : List JSONValue → JSONValue
  | String : String → JSONValue
  | Number : Int × Nat → JSONValue
  | True : JSONValue
  | False : JSONValue
  | Null : JSONValue

/-- Observable behaviour of `HashMap::insert` on an association-list
representation: when the key is present its value is replaced, otherwise the
pair is added.  Duplicate keys therefore keep the last inserted value, exactly
as `result.insert(key, value)` does in `parse_object`. -/
def insertKV (m : List (String × JSONValue)) (key : String) (v : JSONValue) :
    List (String × JSONValue) :=
  match m with
  | [] => [(key, v)]
  | (k0, v0) :: rest =>
    if k0 = key then (key, v) :: rest else (k0, v0) :: insertKV rest key v

/-- Outcome of running a piece of the parser: a value, a `ParseError` (the
`Err` side of the Rust `Result`), a Rust runtime panic (out-of-bounds
indexing, or the `panic!` inside `JSONValue::unwrap`), or fuel exhaustion of
the model. -/
inductive Res (α : Type) where
  | ok : α → Res α
  | err : ParseError → Res α
  | panic : Res α
  | nofuel : Res α

/-- Sequencing of outcomes: `err`, `panic` and `nofuel` abort the rest of the
computation, exactly as `?` propagates `Err` in the source and as a panic
aborts the process. -/
def Res.bind {α β : Type} (r : Res α) (k : α → Res β) : Res β :=
  match r with
  | .ok a => k a
  | .err e => .err e
  | .panic => .panic
  | .nofuel => .nofuel

/-- The cursor of the source: `struct JSON { chars: Vec<char>, i: usize }`. -/
structure JSON where
  chars : List Char
  i : Nat

/-- `self.chars[n]` as a checked lookup; `none` models the Rust index panic. -/
def JSON.getAt (s : JSON) (n : Nat) : Option Char := s.chars.get? n

/-- `JSON::increment`: saturating advance.  `self.chars.len() - 1` is modelled
with truncated `Nat` subtraction; in the source this expression is only ever
evaluated with a non-empty `chars` (every call site is dominated by a
successful `chars[i]` access), where the two agree. -/
def JSON.increment (s : JSON) (amount : Nat) : JSON :=
  if s.chars.length ≤ s.i + amount then { s with i := s.chars.length - 1 }
  else { s with i := s.i + amount }

/-- `char::is_ascii_whitespace`: space, tab, newline, form feed, carriage
return. -/
def isAsciiWhitespace (c : Char) : Bool :=
  c = ' ' || c = '\t' || c = '\n' || c = '\x0c' || c = '\r'

/-- `char::is_ascii_digit`. -/
def isAsciiDigit (c : Char) : Bool := '0' ≤ c && c ≤ '9'

/-- `char::is_ascii_hexdigit`. -/
def isAsciiHexdigit (c : Char) : Bool :=
  isAsciiDigit c || ('a' ≤ c && c ≤ 'f') || ('A' ≤ c && c ≤ 'F')

/-- Numeric value of an ASCII hex digit. -/
def hexVal (c : Char) : Nat :=
  if isAsciiDigit c then c.toNat - 48
  else if 'a' ≤ c && c ≤ 'f' then c.toNat - 87
  else c.toNat - 55

/-- `String::from_utf16_lossy(&[code])` for one code unit: an unpaired
surrogate becomes U+FFFD, any other unit is the corresponding scalar value. -/
def utf16LossyChar (code : Nat) : Char :=
  if 0xD800 ≤ code && code ≤ 0xDFFF then '�' else Char.ofNat code

/-- `String::from_iter(&chars[start..stop])`.  All call sites in the source
have `start ≤ stop ≤ chars.len()`, where the total `drop`/`take` agrees with
the Rust slice. -/
def sliceStr (chars : List Char) (start stop : Nat) : String :=
  String.mk ((chars.drop start).take (stop - start))

/-- `JSON::skip_whitespace`.  The loop advances with the saturating
`increment`, so it is genuinely nonterminating when every character from the
cursor to the end of the input is ASCII whitespace; the fuel makes that
observable as `Res.nofuel` for every fuel. -/
def skipWhitespace : Nat → JSON → Res JSON
  | 0, _ => .nofuel
  | fuel + 1, s =>
    match s.getAt s.i with
    | none => .panic
    | some c =>
      if isAsciiWhitespace c then skipWhitespace fuel (s.increment 1) else .ok s

/-- `JSON::eat`. -/
def eat (s : JSON) (ch : Char) : Res JSON :=
  match s.getAt s.i with
  | none => .panic
  | some c =>
    if c ≠ ch then .err (.ExpectedToken ("Expected " ++ String.singleton ch ++ "."))
    else .ok (s.increment 1)

/-- `JSON::expect_digit(start, stop)`: reads `chars[stop]` (panicking when out
of bounds, as the source does) and fails with `ExpectedDigit` when it is not a
digit. -/
def expectDigit (s : JSON) (start stop : Nat) : Res Unit :=
  let current := sliceStr s.chars start stop
  match s.getAt stop with
  | none => .panic
  | some c =>
    if ¬ isAsciiDigit c then
      .err (.ExpectedDigit ("Expected a digit, received \x27" ++ String.singleton c ++
        "\x27 after numeric \x27" ++ current ++ "\x27"))
    else .ok ()

/-- `JSON::expect_not_end`. -/
def expectNotEnd (s : JSON) (ch : Char) : Res Unit :=
  if s.i = s.chars.length then
    .err (.UnexpectedEndOfInput ("Unexpected end of input. Expected \x27" ++
      String.singleton ch ++ "\x27"))
  else .ok ()

/-- `JSON::parse_keyword`: compares the upcoming slice (truncated at the end
of the input) with `search` and, on a match, advances the position by the full
keyword length with a plain `self.i += search.len()` (no clamping and no
boundary check on what follows). -/
def parseKeyword (s : JSON) (search : String) (value : JSONValue) :
    Res (Option JSONValue × JSON) :=
  let start := s.i
  let stop :=
    if s.chars.length < s.i + search.length then s.chars.length
    else s.i + search.length
  if sliceStr s.chars start stop = search then
    .ok (some value, { s with i := s.i + search.length })
  else .ok (none, s)

/-- One `while chars[n].is_ascii_digit() && n < max` scanning loop of
`parse_number`, with explicit gas.  Each iteration requires `n < mx` and
increases `n`, so at most `mx` iterations happen; the gas `mx + 1` used by
`scanDigits` therefore never cuts the loop short. -/
def scanDigitsGas : Nat → List Char → Nat → Nat → Nat
  | 0, _, _, n => n
  | gas + 1, chars, mx, n =>
    match chars.get? n with
    | none => n
    | some c =>
      if isAsciiDigit c ∧ n < mx then scanDigitsGas gas chars mx (n + 1) else n

/-- The digit-scanning loop of `parse_number` starting at `n` with bound
`mx = chars.len() - 1`. -/
def scanDigits (chars : List Char) (mx n : Nat) : Nat :=
  scanDigitsGas (mx + 1) chars mx n

/-- Value of a list of ASCII digits read in base 10. -/
def digitsVal (l : List Char) : Nat :=
  l.foldl (fun a c => a * 10 + (c.toNat - 48)) 0

/-- Unsigned part of `strToNumber`: digits, optional fraction, optional
exponent, returned as an exact fraction (numerator, denominator). -/
def strToNumberCore (cs : List Char) : Option (Nat × Nat) :=
  let ds := cs.takeWhile isAsciiDigit
  let cs1 := cs.dropWhile isAsciiDigit
  if ds.isEmpty then none
  else
    let fr : List Char × List Char :=
      match cs1 with
      | '.' :: rest => (rest.takeWhile isAsciiDigit, rest.dropWhile isAsciiDigit)
      | _ => ([], cs1)
    let num0 := digitsVal ds * 10 ^ fr.1.length + digitsVal fr.1
    let den0 := 10 ^ fr.1.length
    match fr.2 with
    | [] => some (num0, den0)
    | c :: rest =>
      if c = 'e' ∨ c = 'E' then
        let sr : Bool × List Char :=
          match rest with
          | '-' :: r => (true, r)
          | '+' :: r => (false, r)
          | _ => (false, rest)
        let es := sr.2.takeWhile isAsciiDigit
        if es.isEmpty ∨ ¬ (sr.2.dropWhile isAsciiDigit).isEmpty then none
        else if sr.1 then some (num0, den0 * 10 ^ digitsVal es)
        else some (num0 * 10 ^ digitsVal es, den0)
      else none

/-- Models the Rust standard-library conversion `str::parse::<f64>()` used by
`parse_number`.  The accepted grammar (optional sign, digits, optional `.`
fraction, optional `e`/`E` exponent with optional sign) matches
`f64::from_str` on every substring the scanner of `parse_number` can hand to
it.  The value is kept as an exact fraction instead of an IEEE-754 double:
rounding is not modelled, and on the small integer literals evaluated in the
theorems below the `f64` conversion is exact, so the two agree there. -/
def strToNumber (str : String) : Option (Int × Nat) :=
  match str.data with
  | '-' :: rest => (strToNumberCore rest).map fun p => (-(p.1 : Int), p.2)
  | cs => (strToNumberCore cs).map fun p => ((p.1 : Int), p.2)

/-- `JSON::parse_number`, line by line.  `mx` is `self.chars.len() - 1`;
`n1 … n6` are the successive values of the mutable `n`.  The boolean
conditions of lines 322 and 324 of the source are reproduced with their
original (mis)grouping: `chars[n] == 'e' || (chars[n] == 'E' && n < max)` and
`chars[n] == '-' || (chars[n] == '+' && n < max)`. -/
def parseNumber (s : JSON) : Res (Option JSONValue × JSON) :=
  let start := s.i
  match s.getAt start with
  | none => .panic
  | some c0 =>
    if ¬ (isAsciiDigit c0 || c0 = '-') then .ok (none, s)
    else
      let mx := s.chars.length - 1
      (if c0 = '-' ∧ start < mx then
        (expectDigit s start (start + 1)).bind fun _ => (.ok (start + 1) : Res Nat)
      else (.ok start : Res Nat)).bind fun n1 =>
      let n2 := scanDigits s.chars mx n1
      ((match s.getAt n2 with
       | none => Res.panic
       | some c2 =>
        if c2 = '.' ∧ n2 < mx then
          (expectDigit s start (n2 + 1)).bind fun _ =>
            (.ok (scanDigits s.chars mx (n2 + 1)) : Res Nat)
        else (.ok n2 : Res Nat)) : Res Nat).bind fun n3 =>
      ((match s.getAt n3 with
       | none => Res.panic
       | some c3 =>
        if c3 = 'e' ∨ (c3 = 'E' ∧ n3 < mx) then
          match s.getAt (n3 + 1) with
          | none => Res.panic
          | some c4 =>
            let n5 := if c4 = '-' ∨ (c4 = '+' ∧ n3 + 1 < mx) then n3 + 2 else n3 + 1
            (expectDigit s start n5).bind fun _ =>
              (.ok (scanDigits s.chars mx n5) : Res Nat)
        else (.ok n3 : Res Nat)) : Res Nat).bind fun n6 =>
      if start < n6 then
        let endIdx := if n6 < s.chars.length then n6 else mx
        match s.getAt endIdx with
        | none => .panic
        | some ce =>
          let endIdx2 := if ¬ isAsciiDigit ce then endIdx - 1 else endIdx
          let str := sliceStr s.chars start (endIdx2 + 1)
          match strToNumber str with
          | some num => .ok (some (.Number num), s.increment str.length)
          | none => .err (.ExpectedDigit ("\x27" ++ str ++ "\x27, invalid float literal"))
      else .ok (none, s)

/-- The scanning loop of `JSON::parse_string` (lines 248-295), carrying the
accumulated decoded text.  On loop exit it performs the trailing
`expect_not_end('"')` check and the final `increment(1)` of the production. -/
def parseStringLoop : Nat → JSON → String → Res (String × JSON)
  | 0, _, _ => .nofuel
  | fuel + 1, s, acc =>
    match s.getAt s.i with
    | none => .panic
    | some c =>
      if c ≠ '"' ∧ s.i < s.chars.length - 1 then
        if c = '\\' then
          match s.getAt (s.i + 1) with
          | none => .panic
          | some ch =>
            if ch = '"' then
              parseStringLoop fuel ((s.increment 1).increment 1) (acc.push '"')
            else if ch = '\\' ∨ ch = '/' then
              parseStringLoop fuel ((s.increment 1).increment 1) (acc.push ch)
            else if ch = 'b' ∨ ch = 'f' ∨ ch = 'n' ∨ ch = 'r' ∨ ch = 't' then
              let decoded : Char :=
                if ch = 'b' then '\x08'
                else if ch = 'f' then '\x0c'
                else if ch = 'n' then '\n'
                else if ch = 'r' then '\r'
                else '\t'
              parseStringLoop fuel ((s.increment 1).increment 1) (acc.push decoded)
            else if ch = 'u' then
              match s.getAt (s.i + 2) with
              | none => .panic
              | some h1 =>
                if ¬ isAsciiHexdigit h1 then
                  .err (.ExpectedUnicodeEscape "Expected a unicode escape sequence")
                else
                  match s.getAt (s.i + 3) with
                  | none => .panic
                  | some h2 =>
                    if ¬ isAsciiHexdigit h2 then
                      .err (.ExpectedUnicodeEscape "Expected a unicode escape sequence")
                    else
                      match s.getAt (s.i + 4) with
                      | none => .panic
                      | some h3 =>
                        if ¬ isAsciiHexdigit h3 then
                          .err (.ExpectedUnicodeEscape "Expected a unicode escape sequence")
                        else
                          match s.getAt (s.i + 5) with
                          | none => .panic
                          | some h4 =>
                            if ¬ isAsciiHexdigit h4 then
                              .err (.ExpectedUnicodeEscape "Expected a unicode escape sequence")
                            else
                              let code :=
                                ((hexVal h1 * 16 + hexVal h2) * 16 + hexVal h3) * 16 + hexVal h4
                              parseStringLoop fuel ((s.increment 5).increment 1)
                                (acc.push (utf16LossyChar code))
            else .err (.ExpectedEscapeChar "Expected an escape sequence")
        else
          parseStringLoop fuel (s.increment 1) (acc.push c)
      else
        (expectNotEnd s '"').bind fun _ => .ok (acc, s.increment 1)

/-- `JSON::parse_string`. -/
def parseString (fuel : Nat) (s : JSON) : Res (Option JSONValue × JSON) :=
  match s.getAt s.i with
  | none => .panic
  | some c =>
    if c ≠ '"' then .ok (none, s)
    else (parseStringLoop fuel (s.increment 1) "").bind fun p =>
      .ok (some (.String p.1), p.2)

/-- One alternative of the `try_parse!` chain of `parse_value`: a matched
value returns, `None` falls through to the next alternative, an error
propagates. -/
def tryP (r : Res (Option JSONValue × JSON)) (k : JSON → Res (JSONValue × JSON)) :
    Res (JSONValue × JSON) :=
  match r with
  | .ok (some v, s) => .ok (v, s)
  | .ok (none, s) => k s
  | .err e => .err e
  | .panic => .panic
  | .nofuel => .nofuel

/-- Requests of the mutually recursive part of the parser: `parse_value`,
`parse_object` and its member loop (carrying the accumulated map and the
`initial` flag), `parse_array` and its element loop. -/
inductive PReq where
  | pvalue
  | pobject
  | pobjLoop (acc : List (String × JSONValue)) (initial : Bool)
  | parray
  | parrLoop (acc : List JSONValue) (initial : Bool)

/-- Result type of each request. -/
@[reducible]
def PReq.Out : PReq → Type
  | .pvalue => JSONValue
  | .pobject => Option JSONValue
  | .pobjLoop _ _ => List (String × JSONValue)
  | .parray => Option JSONValue
  | .parrLoop _ _ => List JSONValue

/-- The mutually recursive core of the parser, fuelled.  `pvalue` is
`parse_value` (lines 169-183): skip whitespace, then try string, number,
object, array, `true`, `false`, `null` in that order, and fail with the
generic `UnexpectedEndOfInput` when nothing matches.  `pobject`/`pobjLoop`
are `parse_object` (lines 185-218), `parray`/`parrLoop` are `parse_array`
(lines 220-240); the loop requests re-check `chars[i]` against the closing
delimiter exactly as the `while` heads do, and the non-`String` key case of
`pobjLoop` models the `panic!` inside `JSONValue::unwrap`. -/
def run : (fuel : Nat) → (r : PReq) → JSON → Res (r.Out × JSON)
  | 0, _, _ => .nofuel
  | fuel + 1, .pvalue, s =>
    (skipWhitespace fuel s).bind fun sa =>
    tryP (parseString fuel sa) fun sb =>
    tryP (parseNumber sb) fun sc =>
    tryP (run fuel .pobject sc) fun sd =>
    tryP (run fuel .parray sd) fun se =>
    tryP (parseKeyword se "true" .True) fun sf =>
    tryP (parseKeyword sf "false" .False) fun sg =>
    tryP (parseKeyword sg "null" .Null) fun _ =>
    .err (.UnexpectedEndOfInput "Doesn\x27t seem to be valid JSON")
  | fuel + 1, .pobject, s =>
    match s.getAt s.i with
    | none => .panic
    | some c =>
      if c ≠ '{' then .ok (none, s)
      else
        (skipWhitespace fuel (s.increment 1)).bind fun s1 =>
        (run fuel (.pobjLoop [] true) s1).bind fun p =>
        (expectNotEnd p.2 '}').bind fun _ =>
        .ok (some (.Object p.1), p.2.increment 1)
  | fuel + 1, .pobjLoop acc initial, s =>
    match s.getAt s.i with
    | none => .panic
    | some c =>
      if c = '}' then .ok (acc, s)
      else
        (skipWhitespace fuel s).bind fun s1 =>
        (if initial then skipWhitespace fuel s1
         else (eat s1 ',').bind fun s2 => skipWhitespace fuel s2).bind fun s3 =>
        (parseString fuel s3).bind fun q =>
        match q.1 with
        | none =>
          .err (.ExpectedObjectKey
            "Expected an object key. Does the object have a trailing comma?")
        | some kv =>
          (skipWhitespace fuel q.2).bind fun s4 =>
          (eat s4 ':').bind fun s5 =>
          match kv with
          | .String key =>
            (run fuel .pvalue s5).bind fun pv =>
            (skipWhitespace fuel pv.2).bind fun s6 =>
            run fuel (.pobjLoop (insertKV acc key pv.1) false) s6
          | _ => .panic
  | fuel + 1, .parray, s =>
    match s.getAt s.i with
    | none => .panic
    | some c =>
      if c ≠ '[' then .ok (none, s)
      else
        (skipWhitespace fuel (s.increment 1)).bind fun s1 =>
        (run fuel (.parrLoop [] true) s1).bind fun p =>
        (expectNotEnd p.2 ']').bind fun _ =>
        .ok (some (.Array p.1), p.2.increment 1)
  | fuel + 1, .parrLoop acc initial, s =>
    match s.getAt s.i with
    | none => .panic
    | some c =>
      if c = ']' then .ok (acc, s)
      else
        (skipWhitespace fuel s).bind fun s1 =>
        (if initial then (.ok s1 : Res JSON) else eat s1 ',').bind fun s2 =>
        (run fuel .pvalue s2).bind fun pv =>
        run fuel (.parrLoop (acc ++ [(pv.1 : JSONValue)]) false) pv.2

/-- `JSON::parse_value`. -/
def parseValue (fuel : Nat) (s : JSON) : Res (JSONValue × JSON) :=
  run fuel .pvalue s

/-- `JSON::parse_object`. -/
def parseObject (fuel : Nat) (s : JSON) : Res (Option JSONValue × JSON) :=
  run fuel .pobject s

/-- `JSON::parse_array`. -/
def parseArray (fuel : Nat) (s : JSON) : Res (Option JSONValue × JSON) :=
  run fuel .parray s

/-- `JSON::parse`: build the cursor over the decoded characters and run
`parse_value` once, discarding the final cursor state — there is no check
that the whole input was consumed. -/
def JSON.parse (fuel : Nat) (json : String) : Res JSONValue :=
  (parseValue fuel { chars := json.data, i := 0 }).bind fun p => .ok p.1

example : JSON.parse 20 "null" = .ok .Null := rfl

example : JSON.parse 20 "-12" = .ok (.Number (-12, 1)) := rfl

example : JSON.parse 60 "\x7b\"a\":1,\"b\":[true,false,null]\x7d" =
    .ok (.Object [("a", .Number (1, 1)),
      ("b", .Array [.True, .False, .Null])]) := rfl

example : JSON.parse 20 "tru" =
    .err (.UnexpectedEndOfInput "Doesn\x27t seem to be valid JSON") := rfl

/-! ### Helper lemmas -/

theorem JSON.increment_chars (s : JSON) (amount : Nat) :
    (s.increment amount).chars = s.chars := by
  unfold JSON.increment
  split <;> rfl

theorem JSON.increment_le (s : JSON) (amount : Nat) :
    (s.increment amount).i ≤ s.chars.length - 1 := by
  unfold JSON.increment
  split
  · exact Nat.le_refl _
  · next h =>
    show s.i + amount ≤ s.chars.length - 1
    omega

theorem skipWhitespace_ok_bound : ∀ (fuel : Nat) (s s' : JSON),
    skipWhitespace fuel s = .ok s' →
    s'.chars = s.chars ∧ s'.i ≤ s.chars.length - 1 := by
  intro fuel
  induction fuel with
  | zero =>
    intro s s' h
    exact Res.noConfusion h
  | succ m ih =>
    intro s s' h
    cases hg : s.getAt s.i with
    | none =>
      simp only [skipWhitespace, hg] at h
      exact Res.noConfusion h
    | some c =>
      simp only [skipWhitespace, hg] at h
      split at h
      · have hrec := ih (s.increment 1) s' h
        rwa [JSON.increment_chars] at hrec
      · cases h
        refine ⟨rfl, ?_⟩
        have hlt : s.i < s.chars.length := by
          by_contra hge
          rw [JSON.getAt, List.get?_eq_none.mpr (by omega)] at hg
          exact Option.noConfusion hg
        omega

theorem lookup_insertKV (m : List (String × JSONValue)) (k : String) (v : JSONValue) :
    List.lookup k (insertKV m k v) = some v := by
  induction m with
  | nil => simp [insertKV, List.lookup]
  | cons hd tl ih =>
    obtain ⟨k0, v0⟩ := hd
    by_cases h : k0 = k
    · subst h
      simp [insertKV, List.lookup]
    · have hbeq : (k == k0) = false := beq_eq_false_iff_ne.mpr (Ne.symm h)
      simp [insertKV, h, List.lookup, hbeq, ih]

/-! ### Claims -/

/-- Claim C1: the specification states that `JSON::parse` terminates on every
input with work bounded linearly by the input length.  That is the intent, but
the code violates it: on the input `" "` (a single space) `skip_whitespace`
never terminates, because the saturating `increment` clamps the position at
the final index, which holds a whitespace character, so the loop condition
stays true forever.  In the fuelled model this is exactly the statement that
the run yields `Res.nofuel` for every fuel. -/
theorem parse_whitespace_only_diverges :
    ∀ fuel : Nat, JSON.parse fuel " " = .nofuel := by
  have aux : ∀ n : Nat, skipWhitespace n ⟨[' '], 0⟩ = .nofuel := by
    intro n
    induction n with
    | zero => rfl
    | succ m ih => exact ih
  intro fuel
  cases fuel with
  | zero => rfl
  | succ m =>
    show Res.bind (Res.bind (skipWhitespace m ⟨[' '], 0⟩) _) _ = .nofuel
    rw [aux m]
    rfl

/-- Claim C2: the specification states that `parse` returns a `Result` on
every input, including the empty string, and that all character indexing
stays in bounds.  The code violates it: `parse("")` reaches
`skip_whitespace`, which indexes `chars[0]` of an empty buffer and panics.
The model makes the panic visible for every fuel that lets the run reach the
indexing operation. -/
theorem parse_empty_input_panics :
    ∀ fuel : Nat, JSON.parse (fuel + 2) "" = .panic :=
  fun _ => rfl

/-- Claim C3: the specification states that `parse("{")` fails with
`UnexpectedEndOfInput`.  The code has `expect_not_end('}')` for exactly that
purpose, but the saturating `increment` keeps the position at the last index,
so `i == chars.len()` is unreachable and the dead-end check never fires;
instead the member loop re-enters on the clamped `'{'` and fails with
`ExpectedObjectKey`. -/
theorem parse_lone_open_brace_wrong_error_kind :
    JSON.parse 20 "\x7b" =
      .err (.ExpectedObjectKey
        "Expected an object key. Does the object have a trailing comma?") := rfl

/-- Claim C4: the specification states that a string whose opening quote is
never closed fails with `UnexpectedEndOfInput` and is never accepted
truncated.  The code violates it: the scanning loop stops at
`i < chars.len() - 1`, after which `expect_not_end` cannot fire (the clamped
position never equals `chars.len()`), so `parse("\"ab")` succeeds with the
truncated `String("a")`, silently dropping the final character. -/
theorem parse_unterminated_string_truncates :
    JSON.parse 20 "\"ab" = .ok (.String "a") ∧
    JSON.parse 20 "\"a" = .ok (.String "") ∧
    JSON.parse 20 "\"" = .ok (.String "") :=
  ⟨rfl, rfl, rfl⟩

/-- Claim C5: the specification states that an entered optional clause of the
number grammar that is not followed by a digit fails with `ExpectedDigit`,
also when the exponent marker or sign is the very last character, and never
goes out of bounds.  The code violates exactly that boundary case, as the
specification itself warns (§4.6/§9): the condition
`chars[n] == 'e' || chars[n] == 'E' && n < max` groups as
`'e' || ('E' && n < max)`, so a trailing `'e'` (and likewise a trailing
`'-'` exponent sign) is entered without room left and the subsequent
`chars[n]` access is out of bounds: `parse("1e")` and `parse("1e-")` panic.
Mid-input, the clause does fail with `ExpectedDigit` as claimed. -/
theorem parse_trailing_exponent_marker_panics :
    JSON.parse 20 "1e" = .panic ∧
    JSON.parse 20 "1e-" = .panic ∧
    (∃ msg, JSON.parse 20 "1e+" = .err (.ExpectedDigit msg)) ∧
    (∃ msg, JSON.parse 20 "1.x" = .err (.ExpectedDigit msg)) ∧
    (∃ msg, JSON.parse 20 "-x" = .err (.ExpectedDigit msg)) :=
  ⟨rfl, rfl, ⟨_, rfl⟩, ⟨_, rfl⟩, ⟨_, rfl⟩⟩

/-- Claim C6 counterexample: the universal clause of the claim — every input
beginning with a complete valid value followed by trailing characters yields
`Ok` of that value — is false.  `"12"` is a complete valid value that parses
on its own, yet with trailing characters appended the same prefix is not
returned: `parse("12.x")` fails with `ExpectedDigit` (the number production
reads into the trailing `.x`) and `parse("12e")` panics (the trailing
exponent marker triggers the out-of-bounds read of `parse_number`). -/
theorem trailing_after_complete_value_can_fail :
    JSON.parse 20 "12" = .ok (.Number (12, 1)) ∧
    (∃ msg, JSON.parse 20 "12.x" = .err (.ExpectedDigit msg)) ∧
    JSON.parse 20 "12e" = .panic :=
  ⟨rfl, ⟨_, rfl⟩, rfl⟩

/-- Claim C6 as amended: top-level `parse` performs no end-of-input check —
it returns the result of the single `parse_value` call and discards the
final cursor position (last conjunct, definitionally), so trailing content
is never rejected as such; but trailing characters are only guaranteed to be
ignored when the preceding production does not read into them.  The keyword
production never does: it consumes exactly the keyword length with no
boundary check, so `parse_keyword` on `true` followed by any character `c`
matches and advances the cursor by exactly 4, and consequently `parse`
accepts `"true"` followed by any character — in particular `parse("truex")`
is `Ok(True)` with the trailing `x` silently ignored. -/
theorem parse_ignores_trailing_content :
    (∀ c : Char, JSON.parse 20 (String.push "true" c) = .ok .True) ∧
    JSON.parse 20 "truex" = .ok .True ∧
    (∀ c : Char,
      parseKeyword ⟨['t', 'r', 'u', 'e', c], 0⟩ "true" .True =
        .ok (some .True, ⟨['t', 'r', 'u', 'e', c], 4⟩)) ∧
    (∀ (fuel : Nat) (json : String),
      JSON.parse fuel json =
        Res.bind (parseValue fuel ⟨json.data, 0⟩) fun p => Res.ok p.1) :=
  ⟨fun _ => rfl, rfl, fun _ => rfl, fun _ _ => rfl⟩

/-- Claim C7 counterexample: the claim that no operation ever moves the
position past the final index `length - 1` is false.  On the input
`"true"` (length 4, final index 3) the keyword production performs the
unguarded `self.i += search.len()` and leaves the position at 4.  The
overshoot is observable: `parse("[true")` panics because the array loop then
reads `chars[5]` out of bounds on an input of length 5. -/
theorem keyword_moves_cursor_past_final_index :
    parseKeyword ⟨"true".data, 0⟩ "true" .True =
      .ok (some .True, ⟨"true".data, 4⟩) ∧
    ¬ ((4 : Nat) ≤ "true".data.length - 1) ∧
    JSON.parse 20 "[true" = .panic :=
  ⟨rfl, by decide, rfl⟩

/-- Claim C7 as amended: `increment` (and hence `skip_whitespace`, which
advances only through it) always leaves the position within
`[0, length - 1]`; the keyword production's consumption is the one exception
and can move the position to at most `length` — one past the final index —
but never further (positions are natural numbers, so no operation can move
before the start). -/
theorem cursor_bounds_amended :
    (∀ (s : JSON) (amount : Nat), (s.increment amount).i ≤ s.chars.length - 1) ∧
    (∀ (fuel : Nat) (s s' : JSON), skipWhitespace fuel s = .ok s' →
      s'.chars = s.chars ∧ s'.i ≤ s.chars.length - 1) ∧
    (∀ (s : JSON) (kw : String) (v : JSONValue) (r : Option JSONValue) (s' : JSON),
      s.i ≤ s.chars.length → parseKeyword s kw v = .ok (r, s') →
      s'.chars = s.chars ∧ s'.i ≤ s.chars.length) := by
  refine ⟨JSON.increment_le, skipWhitespace_ok_bound, ?_⟩
  intro s kw v r s' hi h
  simp only [parseKeyword] at h
  by_cases hstop : s.chars.length < s.i + kw.length
  · rw [if_pos hstop] at h
    by_cases heq : sliceStr s.chars s.i s.chars.length = kw
    · rw [if_pos heq] at h
      cases h
      refine ⟨rfl, ?_⟩
      have hlen : ((s.chars.drop s.i).take (s.chars.length - s.i)).length = kw.length :=
        congrArg String.length heq
      rw [List.length_take, List.length_drop] at hlen
      show s.i + kw.length ≤ s.chars.length
      omega
    · rw [if_neg heq] at h
      cases h
      exact ⟨rfl, hi⟩
  · rw [if_neg hstop] at h
    by_cases heq : sliceStr s.chars s.i (s.i + kw.length) = kw
    · rw [if_pos heq] at h
      cases h
      refine ⟨rfl, ?_⟩
      have hlen : ((s.chars.drop s.i).take (s.i + kw.length - s.i)).length = kw.length :=
        congrArg String.length heq
      rw [List.length_take, List.length_drop] at hlen
      show s.i + kw.length ≤ s.chars.length
      omega
    · rw [if_neg heq] at h
      cases h
      exact ⟨rfl, hi⟩

/-- Witness for `cursor_bounds_amended` at concrete inputs: `increment 5` on
a one-character input, `skip_whitespace` over `" x"`, and the keyword
production on `"true"` reaching position 4 = length. -/
theorem cursor_bounds_amended_witness :
    (((⟨['a'], 0⟩ : JSON).increment 5).i ≤ (⟨['a'], 0⟩ : JSON).chars.length - 1) ∧
    ((⟨[' ', 'x'], 1⟩ : JSON).chars = (⟨[' ', 'x'], 0⟩ : JSON).chars ∧
      (⟨[' ', 'x'], 1⟩ : JSON).i ≤ (⟨[' ', 'x'], 0⟩ : JSON).chars.length - 1) ∧
    ((⟨"true".data, 4⟩ : JSON).chars = (⟨"true".data, 0⟩ : JSON).chars ∧
      (⟨"true".data, 4⟩ : JSON).i ≤ (⟨"true".data, 0⟩ : JSON).chars.length) :=
  ⟨cursor_bounds_amended.1 ⟨['a'], 0⟩ 5,
   cursor_bounds_amended.2.1 2 ⟨[' ', 'x'], 0⟩ ⟨[' ', 'x'], 1⟩ rfl,
   cursor_bounds_amended.2.2 ⟨"true".data, 0⟩ "true" .True (some .True)
     ⟨"true".data, 4⟩ (by decide) rfl⟩

/-- Claim C8: the specification states that every object literal with a
duplicated key parses successfully, the key mapping to the last occurrence.
The duplicate-key handling itself matches the claim — the insert operation
replaces the value of an existing key (second conjunct, for every map, key
and value), and `parse("{\"a\":true,\"a\":false}")` yields an object mapping
`"a"` to `False` (third conjunct) — but the success half of the claim is
broken by the array-loop bug (see C10): on the duplicate-key object literal
`{"k":[1 ],"k":[2]}` the nested array's whitespace before `]` makes the
element loop demand a `,`, so the whole parse fails with `ExpectedToken`
(first conjunct) instead of producing `"k" ↦ [2]`. -/
theorem duplicate_object_keys_last_wins_when_parsed :
    JSON.parse 60 "\x7b\"k\":[1 ],\"k\":[2]\x7d" =
      .err (.ExpectedToken "Expected ,.") ∧
    (∀ (m : List (String × JSONValue)) (k : String) (v : JSONValue),
      List.lookup k (insertKV m k v) = some v) ∧
    JSON.parse 60 "\x7b\"a\":true,\"a\":false\x7d" = .ok (.Object [("a", .False)]) :=
  ⟨rfl, lookup_insertKV, rfl⟩

/-- Claim C9: each `\uXXXX` escape is decoded independently as one UTF-16
code unit with lossy decoding: `parse("\"\\u0041\\u0042\"")` is
`String("AB")`, and two consecutive escapes forming a surrogate pair are NOT
combined — `parse("\"\\uD83D\\uDE00\"")` yields two U+FFFD replacement
characters instead of one astral code point. -/
theorem unicode_escapes_decoded_independently :
    JSON.parse 30 "\"\\u0041\\u0042\"" = .ok (.String "AB") ∧
    JSON.parse 30 "\"\\uD83D\\uDE00\"" = .ok (.String "��") :=
  ⟨rfl, rfl⟩

/-- Claim C10: the specification states that every valid array literal
parses with element order preserved.  The code violates the success half:
the array element loop tests `chars[i] != ']'` and then demands a `,`
*before* skipping the whitespace standing before `]` — unlike the object
member loop, which ends each iteration with a trailing `skip_whitespace`
(line 213) and therefore tolerates the analogous `{"k":12 }` (third
conjunct) — so the valid literal `[1 ]` fails with
`ExpectedToken("Expected ,.")` (first conjunct).  Where an array literal
does parse, element order is preserved, as on the claim's own scenario
`" [1, 2, 3] "` (second conjunct; the `f64` payloads are modelled as the
exact fractions `1/1`, `2/1`, `3/1`, on which the `f64` conversion is
exact). -/
theorem array_whitespace_before_close_fails :
    JSON.parse 30 "[1 ]" = .err (.ExpectedToken "Expected ,.") ∧
    JSON.parse 60 " [1, 2, 3] " =
      .ok (.Array [.Number (1, 1), .Number (2, 1), .Number (3, 1)]) ∧
    JSON.parse 60 "\x7b\"k\":12 \x7d" = .ok (.Object [("k", .Number (12, 1))]) :=
  ⟨rfl, rfl, rfl⟩

end MsonPoc
